import Mathlib

/-!
Verification development for the node-side CSI secret plugin
(internal/csi/node.go of the secret-operator repository).

The Go source is shallowly embedded: the node server methods become pure
Lean functions over an explicit world state (a filesystem model plus a
cluster model), gRPC status errors become an explicit error type, and the
external collaborators (the secret backend, the write syscalls, directory
removal) are supplied as explicit parameters so that their failure modes
can be exercised.
-/

/-- Association lists over string keys model Go string-keyed maps
(pod annotation maps, secret data maps, the file table of the filesystem). -/
abbrev AnnList := List (String × String)

/-- Lookup in an association list; models Go map indexing `m[k]`. -/
def lookupKey : AnnList → String → Option String
  | [], _ => none
  | (k, v) :: rest, key => if k = key then some v else lookupKey rest key

/-- Replace-or-append update of an association list; models Go map
assignment `m[k] = v`. -/
def setKey : AnnList → String → String → AnnList
  | [], key, val => [(key, val)]
  | (k, v) :: rest, key, val =>
      if k = key then (key, val) :: rest else (k, v) :: setKey rest key val

/-- Boolean membership in a list of strings. -/
def strMem : List String → String → Bool
  | [], _ => false
  | s :: rest, x => if s = x then true else strMem rest x

/-! ## Model of Go path handling (path/filepath, unix rules)

`filepath.Join(a, b)` joins the non-empty elements with a slash and then
lexically cleans the result, which is what resolves parent-directory
segments such as `..`. -/

/-- Split a character list on a separator character, keeping empty parts,
mirroring how a slash-separated path decomposes into components. -/
def splitOnChar (sep : Char) : List Char → List (List Char)
  | [] => [[]]
  | c :: rest =>
      let r := splitOnChar sep rest
      if c = sep then [] :: r
      else
        match r with
        | [] => [[c]]
        | h :: t => (c :: h) :: t

/-- The component loop of the lexical cleaning algorithm of Go
`path.Clean`: drop empty and dot components, resolve a dot-dot component
against the accumulated stack (dropping it at the root of a rooted path). -/
def cleanLoop : List (List Char) → List (List Char) → Bool → List (List Char)
  | acc, [], _ => acc.reverse
  | acc, c :: rest, rooted =>
      if c = [] ∨ c = ['.'] then cleanLoop acc rest rooted
      else if c = ['.', '.'] then
        match acc with
        | [] =>
            if rooted then cleanLoop [] rest rooted
            else cleanLoop [['.', '.']] rest rooted
        | p :: acc' =>
            if p = ['.', '.'] then cleanLoop (c :: acc) rest rooted
            else cleanLoop acc' rest rooted
      else cleanLoop (c :: acc) rest rooted

/-- Reassemble cleaned components with slash separators. -/
def joinComps : List (List Char) → List Char
  | [] => []
  | [c] => c
  | c :: rest => c ++ '/' :: joinComps rest

/-- Model of Go `filepath.Clean` for slash-separated paths. -/
def filepathClean (path : String) : String :=
  if path = "" then "."
  else
    let cs := path.data
    let rooted := cs.head? = some '/'
    let comps := cleanLoop [] (splitOnChar '/' cs) rooted
    let body := joinComps comps
    if rooted then String.mk ('/' :: body)
    else if body = [] then "." else String.mk body

/-- Model of Go `filepath.Join(a, b)`: empty elements are skipped before
joining, and the joined path is cleaned. -/
def filepathJoin (a b : String) : String :=
  if a = "" then (if b = "" then "" else filepathClean b)
  else filepathClean (a ++ "/" ++ b)

/-- True when `p` equals the directory `dir` or lies strictly below it;
used to state that a written path escapes the mounted target directory. -/
def pathUnder (dir p : String) : Bool :=
  p == dir || (dir ++ "/").data.isPrefixOf p.data

/-! ## Model of Go strconv (base 10, 64 bit) -/

/-- Accumulate the value of a decimal digit list. -/
def digitsToNat (l : List Char) : Nat :=
  l.foldl (fun acc c => acc * 10 + (c.toNat - 48)) 0

/-- Model of Go `strconv.ParseInt(s, 10, 64)`: optional sign, at least one
decimal digit, 64-bit signed range; every failure is `none`. -/
def parseInt64 (s : String) : Option Int :=
  match s.data with
  | [] => none
  | c0 :: rest =>
      let signDigits : Bool × List Char :=
        if c0 = '+' then (false, rest)
        else if c0 = '-' then (true, rest)
        else (false, c0 :: rest)
      let neg := signDigits.1
      let digits := signDigits.2
      if digits = [] then none
      else if digits.all (fun c => c.isDigit) then
        let n := digitsToNat digits
        if neg then
          if n ≤ 9223372036854775808 then some (-(n : Int)) else none
        else
          if n ≤ 9223372036854775807 then some ((n : Int)) else none
      else none

/-- Model of Go `strconv.FormatInt(i, 10)`. -/
def formatInt (i : Int) : String :=
  match i with
  | Int.ofNat n => String.mk (Nat.toDigits 10 n)
  | Int.negSucc n => String.mk ('-' :: Nat.toDigits 10 (n + 1))

/-- Modelled from the spec: the single well-known workload annotation key
holding the soonest-known expiration epoch. The constant
`volume.SecretZncdataExpirationTime` lives in `pkg/volume`, which is not
part of the available source; only its role (one fixed string key on the
pod annotation map) is used here. -/
def SecretZncdataExpirationTime : String := "secrets.zncdata.dev/expirationTime"

namespace NodeServer

/-- Model of `updatePod` (internal/csi/node.go): decide, from the pod
annotation map and the optional new expiration time, whether to patch the
pod. `Except.ok none` means the function returned without issuing a patch;
`Except.ok (some anns)` means a patch carrying annotation map `anns` was
issued; `Except.error s` is the fatal parse failure on corrupted value `s`. -/
def updatePod (anns0 : Option AnnList) (expiresTime : Option Int) :
    Except String (Option AnnList) :=
  let anns := anns0.getD []
  match expiresTime with
  | none => Except.ok none
  | some e =>
      match lookupKey anns SecretZncdataExpirationTime with
      | some s =>
          if s ≠ "" then
            match parseInt64 s with
            | none => Except.error s
            | some existing =>
                if e > existing then Except.ok none
                else Except.ok (some (setKey anns SecretZncdataExpirationTime (formatInt e)))
          else Except.ok (some (setKey anns SecretZncdataExpirationTime (formatInt e)))
      | none => Except.ok (some (setKey anns SecretZncdataExpirationTime (formatInt e)))

end NodeServer

/-- The cluster-side annotation map after a reconciliation call: a patch
result replaces the map, and a no-patch return leaves the stored map as it
was. -/
def applyReconcile (anns0 : Option AnnList) (e : Option Int) :
    Except String (Option AnnList) :=
  match NodeServer.updatePod anns0 e with
  | Except.error m => Except.error m
  | Except.ok none => Except.ok anns0
  | Except.ok (some a) => Except.ok (some a)

/-! ## Error model: gRPC status codes used by the node server -/

/-- The gRPC status codes relevant to the node server. The Go code only
produces `invalidArgument`, `internal` and `unimplemented`; `notFound` is
listed because the specification taxonomy names it. -/
inductive ErrCode
  | invalidArgument
  | notFound
  | internal
  | unimplemented
deriving DecidableEq, Repr

/-- A gRPC status error: a code plus a message, modelling
`status.Error(code, msg)`. -/
structure GrpcError where
  code : ErrCode
  msg : String
deriving DecidableEq, Repr

/-- Extract the status code of a call result. -/
def errCodeOf (x : Except GrpcError Unit) : Option ErrCode :=
  match x with
  | Except.error e => some e.code
  | Except.ok _ => none

/-! ## Filesystem and cluster model -/

/-- A mount-table entry, recording the arguments of
`mounter.Mount(source, target, fstype, options)`. -/
structure MountEntry where
  source : String
  target : String
  fstype : String
  options : List String
deriving DecidableEq, Repr

/-- The node filesystem model: the set of directories, the file table
(path to content) and the mount table. -/
structure FileSystem where
  dirs : List String
  files : AnnList
  mounts : List MountEntry
deriving DecidableEq, Repr

/-- The empty filesystem. -/
def emptyFS : FileSystem := { dirs := [], files := [], mounts := [] }

/-- Model of `mount.PathExists`: a path exists when it is a directory or a
file of the model. -/
def pathExists (fs : FileSystem) (p : String) : Bool :=
  strMem fs.dirs p || (lookupKey fs.files p).isSome

/-- Model of `os.WriteFile`: create or truncate the file at `p`. -/
def writeFileFS (fs : FileSystem) (p content : String) : FileSystem :=
  { fs with files := setKey fs.files p content }

/-- Keep predicate of `os.RemoveAll(target)`: a path survives removal when
it is neither the target nor below it. -/
def keepPath (target p : String) : Bool :=
  !(p == target || (target ++ "/").data.isPrefixOf p.data)

/-- Model of `os.RemoveAll(target)`: drop the target and everything below
it; removal of a nonexistent path is a no-op that succeeds. -/
def removeAllFS (fs : FileSystem) (target : String) : FileSystem :=
  { fs with
    dirs := fs.dirs.filter (fun d => keepPath target d),
    files := fs.files.filter (fun p => keepPath target p.1) }

/-- Model of `mounter.Unmount(target)`: drop every mount entry at the
target. The Go caller ignores the returned error, so the model carries no
error channel. -/
def unmountFS (fs : FileSystem) (target : String) : FileSystem :=
  { fs with mounts := fs.mounts.filter (fun m => !(m.target == target)) }

/-- A pod object: name, namespace and an optional annotation map (a Go nil
map is `none`). -/
structure PodObj where
  name : String
  ns : String
  annotations : Option AnnList
deriving DecidableEq, Repr

/-- The cluster model: the names of the existing cluster-scoped secret
classes and the existing pods. -/
structure Cluster where
  secretClasses : List String
  pods : List PodObj
deriving DecidableEq, Repr

/-- Model of `client.Get` on a pod key. -/
def getPod (c : Cluster) (ns name : String) : Option PodObj :=
  c.pods.find? (fun p => p.ns == ns && p.name == name)

/-- Apply the annotation patch of `updatePod` to the stored pod object. -/
def setPodAnnotations (c : Cluster) (ns name : String) (anns : AnnList) : Cluster :=
  { c with
    pods := c.pods.map (fun p =>
      if p.ns == ns && p.name == name then { p with annotations := some anns } else p) }

/-- The world a node-server call acts on: node filesystem plus cluster. -/
structure World where
  fs : FileSystem
  cluster : Cluster
deriving DecidableEq, Repr

/-! ## Requests and the volume selector -/

/-- A `csi.NodePublishVolumeRequest`: the fields the node server reads.
The capability is modelled by its presence. -/
structure NodePublishVolumeRequest where
  volumeId : String
  targetPath : String
  hasVolumeCapability : Bool
  volumeContext : AnnList
deriving DecidableEq, Repr

/-- The typed volume selector derived from the volume context: the
secret-class name and the workload identity. -/
structure VolumeSelector where
  klass : String
  pod : String
  podNamespace : String
deriving DecidableEq, Repr

/-- Modelled from the spec: `volume.NewVolumeSelectorFromMap` lives in
`pkg/volume`, which is not part of the available source. Per the spec the
selector is derived from the volume context and carries the secret-class
name and the workload identity; the class key is the one documented in the
node source, the pod identity keys are the standard CSI pod keys listed
there. Missing keys yield empty fields (the caller checks the class field
for emptiness itself). -/
def selectorOfContext (ctx : AnnList) : VolumeSelector :=
  { klass := (lookupKey ctx "secrets.zncdata.dev/class").getD ""
    pod := (lookupKey ctx "csi.storage.k8s.io/pod.name").getD ""
    podNamespace := (lookupKey ctx "csi.storage.k8s.io/pod.namespace").getD "" }

/-- Modelled from the spec: the parse of the volume context into a typed
selector, with the call shape of `volume.NewVolumeSelectorFromMap`. -/
def NewVolumeSelectorFromMap (ctx : AnnList) : Except String VolumeSelector :=
  Except.ok (selectorOfContext ctx)

/-- The secret content produced by the backend: named file bodies plus an
optional expiration epoch. -/
structure SecretContent where
  data : AnnList
  expiresTime : Option Int
deriving DecidableEq, Repr

namespace NodeServer

/-- The fixed hardening mount options of the Go `mount` method. -/
def mountOpts : List String := ["noexec", "nosuid", "nodev"]

/-- The mount-table entry recorded by a successful `mount` call:
`mounter.Mount("tmpfs", targetPath, "tmpfs", opts)`. -/
def mountEntryFor (targetPath : String) : MountEntry :=
  { source := "tmpfs", target := targetPath, fstype := "tmpfs", options := mountOpts }

/-- Model of the `mount` method: fail if the target path already exists,
otherwise create the directory and mount a tmpfs at it with the fixed
hardening options. -/
def mount (fs : FileSystem) (targetPath : String) : Except GrpcError FileSystem :=
  if pathExists fs targetPath then
    Except.error { code := ErrCode.internal, msg := "target path already exists" }
  else
    Except.ok { dirs := targetPath :: fs.dirs, files := fs.files,
                mounts := mountEntryFor targetPath :: fs.mounts }

/-- Model of the `writeData` method: for each entry write a file at the
join of the target path and the entry name, stopping at the first failing
write. The oracle `wok` says which write syscalls succeed; the first
component of the result is the failing path, if any, and the second is the
filesystem after the writes that did run. -/
def writeData (wok : String → Bool) (targetPath : String) :
    AnnList → FileSystem → Option String × FileSystem
  | [], fs => (none, fs)
  | (name, content) :: rest, fs =>
      let fileName := filepathJoin targetPath name
      if wok fileName then writeData wok targetPath rest (writeFileFS fs fileName content)
      else (some fileName, fs)

/-- Model of `validateNodePublishVolumeRequest`. -/
def validateNodePublishVolumeRequest (r : NodePublishVolumeRequest) :
    Except GrpcError Unit :=
  if r.volumeId = "" then
    Except.error { code := ErrCode.invalidArgument, msg := "volume ID missing in request" }
  else if r.targetPath = "" then
    Except.error { code := ErrCode.invalidArgument, msg := "Target path missing in request" }
  else if r.hasVolumeCapability = false then
    Except.error { code := ErrCode.invalidArgument, msg := "Volume capability missing in request" }
  else if r.volumeContext = [] then
    Except.error { code := ErrCode.invalidArgument, msg := "Volume context missing in request" }
  else Except.ok ()

/-- Model of `NodePublishVolume`. The backend call is supplied as its
result (`backendResult`), and the write syscalls as the oracle `wok`. The
function returns the call result together with the world after the call;
an error leaves the world at the point the pipeline stopped. Every
`client.Get` failure is wrapped as an internal-status error, exactly as in
the Go source. -/
def NodePublishVolume (backendResult : Except String SecretContent)
    (wok : String → Bool) (w : World) (r : NodePublishVolumeRequest) :
    Except GrpcError Unit × World :=
  match validateNodePublishVolumeRequest r with
  | Except.error e => (Except.error e, w)
  | Except.ok _ =>
    if r.targetPath = "" then
      (Except.error { code := ErrCode.invalidArgument, msg := "Target path missing in request" }, w)
    else
      match NewVolumeSelectorFromMap r.volumeContext with
      | Except.error m => (Except.error { code := ErrCode.invalidArgument, msg := m }, w)
      | Except.ok volumeSelector =>
        if volumeSelector.klass = "" then
          (Except.error { code := ErrCode.invalidArgument, msg := "Secret class name missing in request" }, w)
        else if w.cluster.secretClasses.contains volumeSelector.klass = false then
          (Except.error { code := ErrCode.internal,
                          msg := "secret class " ++ volumeSelector.klass ++ " not found" }, w)
        else
          match getPod w.cluster volumeSelector.podNamespace volumeSelector.pod with
          | none =>
              (Except.error { code := ErrCode.internal,
                              msg := "pod " ++ volumeSelector.pod ++ " not found" }, w)
          | some pod =>
            match backendResult with
            | Except.error m => (Except.error { code := ErrCode.internal, msg := m }, w)
            | Except.ok secretContent =>
              match mount w.fs r.targetPath with
              | Except.error e => (Except.error e, w)
              | Except.ok fs1 =>
                match (writeData wok r.targetPath secretContent.data fs1).1 with
                | some m =>
                    (Except.error { code := ErrCode.internal, msg := m },
                     { w with fs := (writeData wok r.targetPath secretContent.data fs1).2 })
                | none =>
                  match updatePod pod.annotations secretContent.expiresTime with
                  | Except.error m =>
                      (Except.error { code := ErrCode.internal, msg := m },
                       { w with fs := (writeData wok r.targetPath secretContent.data fs1).2 })
                  | Except.ok none =>
                      (Except.ok (), { w with fs := (writeData wok r.targetPath secretContent.data fs1).2 })
                  | Except.ok (some anns2) =>
                      (Except.ok (),
                        { fs := (writeData wok r.targetPath secretContent.data fs1).2,
                          cluster := setPodAnnotations w.cluster
                            volumeSelector.podNamespace volumeSelector.pod anns2 })

/-- Model of `NodeUnpublishVolume`: validate the arguments, unmount the
target (a failure there is swallowed by the Go code, so the model simply
drops any mount entries), then remove the target path; only a removal
failure (`removeOk = false`) fails the call. -/
def NodeUnpublishVolume (removeOk : Bool) (w : World) (volumeId targetPath : String) :
    Except GrpcError Unit × World :=
  if volumeId = "" then
    (Except.error { code := ErrCode.invalidArgument, msg := "Volume ID missing in request" }, w)
  else if targetPath = "" then
    (Except.error { code := ErrCode.invalidArgument, msg := "Target path missing in request" }, w)
  else
    let fs1 := unmountFS w.fs targetPath
    if removeOk then (Except.ok (), { w with fs := removeAllFS fs1 targetPath })
    else (Except.error { code := ErrCode.internal, msg := "remove failed" }, { w with fs := fs1 })

end NodeServer

/-! ## Helper lemmas about the association-list and filesystem model -/

theorem lookupKey_setKey_self (m : AnnList) (k v : String) :
    lookupKey (setKey m k v) k = some v := by
  induction m with
  | nil => simp [setKey, lookupKey]
  | cons p rest ih =>
      obtain ⟨k', v'⟩ := p
      by_cases hk : k' = k
      · simp [setKey, hk, lookupKey]
      · simp [setKey, hk, lookupKey, ih]

theorem lookupKey_setKey_ne (m : AnnList) (k v q : String) (h : q ≠ k) :
    lookupKey (setKey m k v) q = lookupKey m q := by
  have hk : k ≠ q := fun e => h e.symm
  induction m with
  | nil => simp [setKey, lookupKey, hk]
  | cons p rest ih =>
      obtain ⟨k', v'⟩ := p
      by_cases hkk : k' = k
      · subst hkk; simp [setKey, lookupKey, hk]
      · simp [setKey, hkk, lookupKey, ih]

theorem lookupKey_setKey_isSome (m : AnnList) (k v q : String)
    (h : (lookupKey m q).isSome = true) :
    (lookupKey (setKey m k v) q).isSome = true := by
  by_cases hq : q = k
  · subst hq; simp [lookupKey_setKey_self]
  · rw [lookupKey_setKey_ne m k v q hq]; exact h

theorem lookupKey_filter_none (m : AnnList) (pr : String → Bool) (a : String)
    (h : pr a = false) :
    lookupKey (m.filter (fun p => pr p.1)) a = none := by
  induction m with
  | nil => simp [lookupKey]
  | cons p rest ih =>
      obtain ⟨k, v⟩ := p
      by_cases hk : pr k = true
      · by_cases hka : k = a
        · subst hka; rw [hk] at h; cases h
        · simp [List.filter, hk, lookupKey, hka, ih]
      · simp [List.filter, hk, ih]

theorem strMem_filter_self (l : List String) (pr : String → Bool) (a : String)
    (h : pr a = false) :
    strMem (l.filter pr) a = false := by
  induction l with
  | nil => simp [strMem]
  | cons s rest ih =>
      by_cases hs : pr s = true
      · by_cases hsa : s = a
        · subst hsa; rw [hs] at h; cases h
        · simp [List.filter, hs, strMem, hsa, ih]
      · simp [List.filter, hs, ih]

theorem mounts_filter_all (l : List MountEntry) (tp : String) :
    ((l.filter (fun m => !(m.target == tp))).all (fun m => !(m.target == tp))) = true := by
  induction l with
  | nil => simp
  | cons m rest ih =>
      by_cases hm : (!(m.target == tp)) = true
      · simp [List.filter, hm, ih]
      · simp [List.filter, hm, ih]

theorem keepPath_self (tp : String) : keepPath tp tp = false := by
  simp [keepPath]

/-- Removal of the target path removes it: afterwards the path no longer
exists. -/
theorem pathExists_removeAll (fs : FileSystem) (tp : String) :
    pathExists (removeAllFS fs tp) tp = false := by
  unfold pathExists removeAllFS
  rw [strMem_filter_self _ _ _ (keepPath_self tp),
      lookupKey_filter_none _ _ _ (keepPath_self tp)]
  rfl

theorem removeAllFS_mounts (fs : FileSystem) (tp : String) :
    (removeAllFS fs tp).mounts = fs.mounts := rfl

/-! ## Helper lemmas about writeData and mount -/

theorem writeData_mounts (wok : String → Bool) (t : String) (d : AnnList) (fs : FileSystem) :
    (NodeServer.writeData wok t d fs).2.mounts = fs.mounts := by
  induction d generalizing fs with
  | nil => simp [NodeServer.writeData]
  | cons p rest ih =>
      obtain ⟨n, c⟩ := p
      by_cases hw : wok (filepathJoin t n) = true
      · simp [NodeServer.writeData, hw, ih, writeFileFS]
      · simp [NodeServer.writeData, hw]

theorem writeData_allOk (t : String) (d : AnnList) (fs : FileSystem) :
    (NodeServer.writeData (fun _ => true) t d fs).1 = none := by
  induction d generalizing fs with
  | nil => simp [NodeServer.writeData]
  | cons p rest ih =>
      obtain ⟨n, c⟩ := p
      simp [NodeServer.writeData, ih]

theorem writeData_frame (wok : String → Bool) (t : String) (d : AnnList)
    (fs : FileSystem) (q : String) (h : ∀ p ∈ d, filepathJoin t p.1 ≠ q) :
    lookupKey (NodeServer.writeData wok t d fs).2.files q = lookupKey fs.files q := by
  induction d generalizing fs with
  | nil => simp [NodeServer.writeData]
  | cons p rest ih =>
      obtain ⟨n, c⟩ := p
      have hn : filepathJoin t n ≠ q := h (n, c) (by simp)
      by_cases hw : wok (filepathJoin t n) = true
      · rw [show NodeServer.writeData wok t ((n, c) :: rest) fs
              = NodeServer.writeData wok t rest (writeFileFS fs (filepathJoin t n) c) by
            simp [NodeServer.writeData, hw]]
        rw [ih (writeFileFS fs (filepathJoin t n) c)
              (fun p hp => h p (List.mem_cons_of_mem _ hp))]
        simp [writeFileFS, lookupKey_setKey_ne _ _ _ _ (fun e => hn e.symm)]
      · simp [NodeServer.writeData, hw]

theorem writeData_writes (wok : String → Bool) (t : String) (d : AnnList) (fs : FileSystem)
    (hok : ∀ p ∈ d, wok (filepathJoin t p.1) = true)
    (hnd : (d.map (fun p => filepathJoin t p.1)).Nodup) :
    ∀ p ∈ d, lookupKey (NodeServer.writeData wok t d fs).2.files (filepathJoin t p.1) = some p.2 := by
  induction d generalizing fs with
  | nil => intro p hp; cases hp
  | cons hd rest ih =>
      obtain ⟨n, c⟩ := hd
      have hw : wok (filepathJoin t n) = true := hok (n, c) (by simp)
      have hstep : NodeServer.writeData wok t ((n, c) :: rest) fs
          = NodeServer.writeData wok t rest (writeFileFS fs (filepathJoin t n) c) := by
        simp [NodeServer.writeData, hw]
      rw [List.map_cons, List.nodup_cons] at hnd
      intro p hp
      rcases List.mem_cons.mp hp with hpe | hpm
      · subst hpe
        rw [hstep, writeData_frame wok t rest _ (filepathJoin t n)
              (fun q hq e => hnd.1 (e ▸ List.mem_map_of_mem _ hq))]
        simp [writeFileFS, lookupKey_setKey_self]
      · rw [hstep]
        exact ih (writeFileFS fs (filepathJoin t n) c)
          (fun q hq => hok q (List.mem_cons_of_mem _ hq)) hnd.2 p hpm

theorem writeData_keeps (wok : String → Bool) (t : String) (d : AnnList)
    (fs : FileSystem) (q : String) (h : (lookupKey fs.files q).isSome = true) :
    (lookupKey (NodeServer.writeData wok t d fs).2.files q).isSome = true := by
  induction d generalizing fs with
  | nil => simpa [NodeServer.writeData] using h
  | cons p rest ih =>
      obtain ⟨n, c⟩ := p
      by_cases hw : wok (filepathJoin t n) = true
      · rw [show NodeServer.writeData wok t ((n, c) :: rest) fs
              = NodeServer.writeData wok t rest (writeFileFS fs (filepathJoin t n) c) by
            simp [NodeServer.writeData, hw]]
        exact ih _ (lookupKey_setKey_isSome _ _ _ _ h)
      · simpa [NodeServer.writeData, hw] using h

/-- Characterization of a successful mount. -/
theorem mount_ok_iff (fs : FileSystem) (tp : String) (fs1 : FileSystem) :
    NodeServer.mount fs tp = Except.ok fs1 ↔
      pathExists fs tp = false ∧
      fs1 = { dirs := tp :: fs.dirs, files := fs.files,
              mounts := NodeServer.mountEntryFor tp :: fs.mounts } := by
  unfold NodeServer.mount
  by_cases he : pathExists fs tp
  · simp [he]
  · simp [he, eq_comm]

/-- A validate pass is exactly the presence of the four request fields. -/
theorem validate_ok_iff (r : NodePublishVolumeRequest) :
    NodeServer.validateNodePublishVolumeRequest r = Except.ok () ↔
      r.volumeId ≠ "" ∧ r.targetPath ≠ "" ∧ r.hasVolumeCapability = true ∧
      r.volumeContext ≠ [] := by
  unfold NodeServer.validateNodePublishVolumeRequest
  by_cases c1 : r.volumeId = "" <;> by_cases c2 : r.targetPath = "" <;>
    by_cases c3 : r.hasVolumeCapability = false <;> by_cases c4 : r.volumeContext = [] <;>
    simp_all

/-! ## Concrete witness worlds -/

/-- A pod object used by concrete runs. -/
def podWit : PodObj := { name := "p", ns := "d", annotations := none }

/-- A cluster holding the referenced secret class and pod. -/
def clusterWit : Cluster := { secretClasses := ["my-class"], pods := [podWit] }

/-- A well-formed volume context naming the class and the pod identity. -/
def ctxWit : AnnList :=
  [("secrets.zncdata.dev/class", "my-class"),
   ("csi.storage.k8s.io/pod.name", "p"),
   ("csi.storage.k8s.io/pod.namespace", "d")]

/-- A well-formed publish request. -/
def reqWit : NodePublishVolumeRequest :=
  { volumeId := "vol", targetPath := "/tp", hasVolumeCapability := true,
    volumeContext := ctxWit }

/-- A successful backend response with one file and no expiration. -/
def bkWit : Except String SecretContent :=
  Except.ok { data := [("a", "x")], expiresTime := none }

/-- A world where the request can fully succeed. -/
def wWit : World := { fs := emptyFS, cluster := clusterWit }

/-- A world whose cluster lacks the referenced secret class. -/
def wNoClassWit : World :=
  { fs := emptyFS, cluster := { secretClasses := [], pods := [podWit] } }

/-- A world where the target path already exists on the node filesystem. -/
def wExistsWit : World :=
  { fs := { dirs := ["/tp"], files := [], mounts := [] }, cluster := clusterWit }

/-! ## Claim theorems -/

/-- Claim C1: for a reconciliation call with the new expiration time
present, when the existing annotation value parses as a 64-bit decimal
integer the annotation is left unchanged (no patch) if the new time is
larger, and becomes the decimal string of the new time otherwise; when no
prior value is present (key absent, empty value, or nil map) the
annotation is set to the decimal string of the new time. -/
theorem updatePod_expiration_policy (anns : AnnList) (e1 : Int) :
    (∀ s e0, lookupKey anns SecretZncdataExpirationTime = some s → s ≠ "" →
        parseInt64 s = some e0 →
        ((e1 > e0 → NodeServer.updatePod (some anns) (some e1) = Except.ok none) ∧
         (e1 ≤ e0 → NodeServer.updatePod (some anns) (some e1)
            = Except.ok (some (setKey anns SecretZncdataExpirationTime (formatInt e1)))))) ∧
    ((lookupKey anns SecretZncdataExpirationTime = none ∨
      lookupKey anns SecretZncdataExpirationTime = some "") →
        NodeServer.updatePod (some anns) (some e1)
          = Except.ok (some (setKey anns SecretZncdataExpirationTime (formatInt e1)))) ∧
    NodeServer.updatePod none (some e1)
      = Except.ok (some [(SecretZncdataExpirationTime, formatInt e1)]) := by
  refine ⟨?_, ?_, ?_⟩
  · intro s e0 hs hne hp
    constructor
    · intro hgt
      simp [NodeServer.updatePod, hs, hne, hp, hgt]
    · intro hle
      simp [NodeServer.updatePod, hs, hne, hp, not_lt.mpr hle]
  · rintro (hs | hs) <;> simp [NodeServer.updatePod, hs]
  · simp [NodeServer.updatePod, setKey, lookupKey]

/-- Witness for C1: prior annotation value 1000, new observation 900; the
annotation becomes 900. -/
theorem updatePod_expiration_policy_witness :
    parseInt64 "1000" = some 1000 ∧
    NodeServer.updatePod (some [(SecretZncdataExpirationTime, "1000")]) (some 900)
      = Except.ok (some [(SecretZncdataExpirationTime, "900")]) := by
  refine ⟨by decide, ?_⟩
  rw [((updatePod_expiration_policy [(SecretZncdataExpirationTime, "1000")] 900).1
        "1000" 1000 rfl (by decide) (by decide)).2 (by decide)]
  rfl

/-- Claim C7: a reconciliation call with no new expiration time returns
success without issuing any patch, so the cluster-side annotation map is
unchanged, and in particular a pod with a nil annotation map keeps it nil
(the expiration key stays unset). -/
theorem updatePod_absent_expiry (anns0 : Option AnnList) :
    NodeServer.updatePod anns0 none = Except.ok none ∧
    applyReconcile anns0 none = Except.ok anns0 ∧
    applyReconcile none none = Except.ok none := by
  refine ⟨?_, ?_, ?_⟩ <;> simp [NodeServer.updatePod, applyReconcile]

/-- Claim C8: a present, non-empty, non-numeric existing annotation value
makes the reconciliation call fail with that value as the error, the
publish call surfaces it as an internal-status error, and the cluster
(hence the stored annotation map) is unchanged. -/
theorem publish_corrupt_annotation_internal
    (bk : Except String SecretContent) (w : World) (r : NodePublishVolumeRequest)
    (pod : PodObj) (content : SecretContent) (anns : AnnList) (s : String) (e1 : Int)
    (h1 : r.volumeId ≠ "") (h2 : r.targetPath ≠ "") (h3 : r.hasVolumeCapability = true)
    (h4 : r.volumeContext ≠ [])
    (hklass : (selectorOfContext r.volumeContext).klass ≠ "")
    (hcls : w.cluster.secretClasses.contains (selectorOfContext r.volumeContext).klass = true)
    (hpod : getPod w.cluster (selectorOfContext r.volumeContext).podNamespace
              (selectorOfContext r.volumeContext).pod = some pod)
    (hbk : bk = Except.ok content)
    (hanns : pod.annotations = some anns)
    (hexp : content.expiresTime = some e1)
    (hs : lookupKey anns SecretZncdataExpirationTime = some s)
    (hne : s ≠ "") (hbad : parseInt64 s = none)
    (hex : pathExists w.fs r.targetPath = false) :
    NodeServer.updatePod pod.annotations content.expiresTime = Except.error s ∧
    (NodeServer.NodePublishVolume bk (fun _ => true) w r).1
      = Except.error { code := ErrCode.internal, msg := s } ∧
    (NodeServer.NodePublishVolume bk (fun _ => true) w r).2.cluster = w.cluster := by
  have hupd : NodeServer.updatePod pod.annotations content.expiresTime = Except.error s := by
    simp [NodeServer.updatePod, hanns, hexp, hs, hne, hbad]
  have hval := (validate_ok_iff r).mpr ⟨h1, h2, h3, h4⟩
  have hmem : (selectorOfContext r.volumeContext).klass ∈ w.cluster.secretClasses := by
    simpa using hcls
  refine ⟨hupd, ?_, ?_⟩ <;>
    simp [NodeServer.NodePublishVolume, hval, h2, NewVolumeSelectorFromMap, hklass, hmem,
          hpod, hbk, NodeServer.mount, hex, writeData_allOk, hupd]

/-- Witness for C8: a pod carrying the corrupted annotation value abc and
a backend expiration of 100 make publish fail with an internal-status
error carrying abc, with the cluster unchanged. -/
theorem publish_corrupt_annotation_internal_witness :
    (NodeServer.NodePublishVolume
        (Except.ok { data := [("a", "x")], expiresTime := some 100 }) (fun _ => true)
        { fs := emptyFS,
          cluster := { secretClasses := ["my-class"],
                       pods := [{ name := "p", ns := "d",
                                  annotations := some [(SecretZncdataExpirationTime, "abc")] }] } }
        reqWit).1
      = Except.error { code := ErrCode.internal, msg := "abc" } := by
  exact (publish_corrupt_annotation_internal
      (Except.ok { data := [("a", "x")], expiresTime := some 100 })
      { fs := emptyFS,
        cluster := { secretClasses := ["my-class"],
                     pods := [{ name := "p", ns := "d",
                                annotations := some [(SecretZncdataExpirationTime, "abc")] }] } }
      reqWit
      { name := "p", ns := "d", annotations := some [(SecretZncdataExpirationTime, "abc")] }
      { data := [("a", "x")], expiresTime := some 100 }
      [(SecretZncdataExpirationTime, "abc")] "abc" 100
      (by decide) (by decide) (by decide) (by decide)
      (by decide) (by decide) (by rfl) rfl rfl rfl (by rfl) (by decide) (by decide)
      (by decide)).2.1

/-- Claim C2, counterexample: with the referenced secret class absent from
the cluster, publish fails with the internal status code, not the
not-found code the claim requires (the Go code wraps every resource-lookup
failure with the internal code). -/
theorem publish_missing_class_counterexample :
    (NodeServer.NodePublishVolume bkWit (fun _ => true) wNoClassWit reqWit).1
      = Except.error { code := ErrCode.internal, msg := "secret class my-class not found" } ∧
    ErrCode.internal ≠ ErrCode.notFound := ⟨rfl, by decide⟩

/-- Claim C2 as amended: when the referenced secret class or the owning
pod does not exist, publish fails with the internal status code (the
lookup failure is wrapped, its not-found kind is not preserved), and the
world is unchanged. -/
theorem publish_missing_resource_internal
    (bk : Except String SecretContent) (wok : String → Bool)
    (w : World) (r : NodePublishVolumeRequest)
    (h1 : r.volumeId ≠ "") (h2 : r.targetPath ≠ "") (h3 : r.hasVolumeCapability = true)
    (h4 : r.volumeContext ≠ [])
    (hklass : (selectorOfContext r.volumeContext).klass ≠ "") :
    (w.cluster.secretClasses.contains (selectorOfContext r.volumeContext).klass = false →
      NodeServer.NodePublishVolume bk wok w r
        = (Except.error
             { code := ErrCode.internal,
               msg := "secret class " ++ (selectorOfContext r.volumeContext).klass
                        ++ " not found" },
           w)) ∧
    (w.cluster.secretClasses.contains (selectorOfContext r.volumeContext).klass = true →
      getPod w.cluster (selectorOfContext r.volumeContext).podNamespace
        (selectorOfContext r.volumeContext).pod = none →
      NodeServer.NodePublishVolume bk wok w r
        = (Except.error
             { code := ErrCode.internal,
               msg := "pod " ++ (selectorOfContext r.volumeContext).pod ++ " not found" },
           w)) := by
  have hval := (validate_ok_iff r).mpr ⟨h1, h2, h3, h4⟩
  constructor
  · intro hcls
    have hmem : (selectorOfContext r.volumeContext).klass ∉ w.cluster.secretClasses := by
      simpa using hcls
    simp [NodeServer.NodePublishVolume, hval, h2, NewVolumeSelectorFromMap, hklass, hmem]
  · intro hcls hpod
    have hmem : (selectorOfContext r.volumeContext).klass ∈ w.cluster.secretClasses := by
      simpa using hcls
    simp [NodeServer.NodePublishVolume, hval, h2, NewVolumeSelectorFromMap, hklass, hmem, hpod]

/-- Witness for the amended C2: the concrete class-less world fails
internal with the world unchanged. -/
theorem publish_missing_resource_internal_witness :
    NodeServer.NodePublishVolume bkWit (fun _ => true) wNoClassWit reqWit
      = (Except.error { code := ErrCode.internal, msg := "secret class my-class not found" },
         wNoClassWit) := by
  exact (publish_missing_resource_internal bkWit (fun _ => true) wNoClassWit reqWit
    (by decide) (by decide) (by decide) (by decide) (by decide)).1 (by decide)

/-- Claim C3: a publish request missing the volume id, the target path,
the capability, or the volume context fails with the invalid-argument
status code and leaves the world (filesystem and cluster) unchanged. -/
theorem publish_invalid_request_no_side_effect
    (bk : Except String SecretContent) (wok : String → Bool)
    (w : World) (r : NodePublishVolumeRequest)
    (h : r.volumeId = "" ∨ r.targetPath = "" ∨ r.hasVolumeCapability = false ∨
         r.volumeContext = []) :
    errCodeOf (NodeServer.NodePublishVolume bk wok w r).1 = some ErrCode.invalidArgument ∧
    (NodeServer.NodePublishVolume bk wok w r).2 = w := by
  unfold NodeServer.NodePublishVolume NodeServer.validateNodePublishVolumeRequest
  rcases h with h | h | h | h <;>
    by_cases c1 : r.volumeId = "" <;> by_cases c2 : r.targetPath = "" <;>
    by_cases c3 : r.hasVolumeCapability = false <;>
    simp_all [errCodeOf]

/-- Witness for C3: a request with an empty volume id fails
invalid-argument and the world is untouched. -/
theorem publish_invalid_request_no_side_effect_witness :
    errCodeOf (NodeServer.NodePublishVolume bkWit (fun _ => true) wWit
        { volumeId := "", targetPath := "/tp", hasVolumeCapability := true,
          volumeContext := ctxWit }).1 = some ErrCode.invalidArgument ∧
    (NodeServer.NodePublishVolume bkWit (fun _ => true) wWit
        { volumeId := "", targetPath := "/tp", hasVolumeCapability := true,
          volumeContext := ctxWit }).2 = wWit := by
  exact publish_invalid_request_no_side_effect bkWit (fun _ => true) wWit
    { volumeId := "", targetPath := "/tp", hasVolumeCapability := true,
      volumeContext := ctxWit } (Or.inl rfl)

/-- Claim C4: a publish whose pipeline reaches the mount step with the
target path already existing fails with an internal-status error carrying
the distinct already-exists message, and the world — in particular the
pre-existing path and its contents — is unchanged. -/
theorem publish_existing_target_internal
    (bk : Except String SecretContent) (wok : String → Bool)
    (w : World) (r : NodePublishVolumeRequest) (pod : PodObj) (content : SecretContent)
    (h1 : r.volumeId ≠ "") (h2 : r.targetPath ≠ "") (h3 : r.hasVolumeCapability = true)
    (h4 : r.volumeContext ≠ [])
    (hklass : (selectorOfContext r.volumeContext).klass ≠ "")
    (hcls : w.cluster.secretClasses.contains (selectorOfContext r.volumeContext).klass = true)
    (hpod : getPod w.cluster (selectorOfContext r.volumeContext).podNamespace
              (selectorOfContext r.volumeContext).pod = some pod)
    (hbk : bk = Except.ok content)
    (hex : pathExists w.fs r.targetPath = true) :
    NodeServer.NodePublishVolume bk wok w r
      = (Except.error { code := ErrCode.internal, msg := "target path already exists" }, w) := by
  have hval := (validate_ok_iff r).mpr ⟨h1, h2, h3, h4⟩
  have hmem : (selectorOfContext r.volumeContext).klass ∈ w.cluster.secretClasses := by
    simpa using hcls
  simp [NodeServer.NodePublishVolume, hval, h2, NewVolumeSelectorFromMap, hklass, hmem,
        hpod, hbk, NodeServer.mount, hex]

/-- Witness for C4: publishing over an existing target path fails with the
already-exists internal error and the world is untouched. -/
theorem publish_existing_target_internal_witness :
    NodeServer.NodePublishVolume bkWit (fun _ => true) wExistsWit reqWit
      = (Except.error { code := ErrCode.internal, msg := "target path already exists" },
         wExistsWit) := by
  exact publish_existing_target_internal bkWit (fun _ => true) wExistsWit reqWit
    podWit { data := [("a", "x")], expiresTime := none }
    (by decide) (by decide) (by decide) (by decide) (by decide) (by decide)
    (by rfl) rfl (by decide)

/-- When every write in the data succeeds, writeData reports no error. -/
theorem writeData_ok_of (wok : String → Bool) (t : String) (d : AnnList) (fs : FileSystem)
    (hok : ∀ p ∈ d, wok (filepathJoin t p.1) = true) :
    (NodeServer.writeData wok t d fs).1 = none := by
  induction d generalizing fs with
  | nil => simp [NodeServer.writeData]
  | cons p rest ih =>
      obtain ⟨n, c⟩ := p
      have hw : wok (filepathJoin t n) = true := hok (n, c) (by simp)
      rw [show NodeServer.writeData wok t ((n, c) :: rest) fs
            = NodeServer.writeData wok t rest (writeFileFS fs (filepathJoin t n) c) by
          simp [NodeServer.writeData, hw]]
      exact ih _ (fun q hq => hok q (List.mem_cons_of_mem _ hq))

/-- Claim C6: every successful publish mounts a tmpfs at the target path
with exactly the three hardening options noexec, nosuid and nodev; the
option list is a fixed constant, independent of every part of the
request. -/
theorem publish_mount_hardening
    (bk : Except String SecretContent) (wok : String → Bool)
    (w : World) (r : NodePublishVolumeRequest) (w1 : World)
    (h : NodeServer.NodePublishVolume bk wok w r = (Except.ok (), w1)) :
    w1.fs.mounts
      = { source := "tmpfs", target := r.targetPath, fstype := "tmpfs",
          options := ["noexec", "nosuid", "nodev"] } :: w.fs.mounts := by
  unfold NodeServer.NodePublishVolume at h
  repeat' split at h
  all_goals simp_all [NewVolumeSelectorFromMap, mount_ok_iff, writeData_mounts,
    NodeServer.mountEntryFor, NodeServer.mountOpts]
  all_goals subst h
  all_goals simp [writeData_mounts]

/-- The world after the fully successful concrete publish run. -/
def w1Wit : World :=
  { fs := { dirs := ["/tp"], files := [("/tp/a", "x")],
            mounts := [{ source := "tmpfs", target := "/tp", fstype := "tmpfs",
                         options := ["noexec", "nosuid", "nodev"] }] },
    cluster := clusterWit }

/-- Witness for C6: the concrete successful publish records exactly the
three hardening options. -/
theorem publish_mount_hardening_witness :
    w1Wit.fs.mounts
      = { source := "tmpfs", target := "/tp", fstype := "tmpfs",
          options := ["noexec", "nosuid", "nodev"] } :: wWit.fs.mounts := by
  exact publish_mount_hardening bkWit (fun _ => true) wWit reqWit w1Wit (by rfl)

/-- Claim C5: unpublish with non-empty arguments succeeds whenever the
directory removal succeeds — so two calls in a row both succeed, the
swallowed unmount failure never failing the call — it fails exactly when
removal fails, and after a successful publish an unpublish of the same
target leaves no directory and no mount entry at the target path. -/
theorem unpublish_idempotent_teardown
    (w : World) (vid tp : String)
    (bk : Except String SecretContent) (wok : String → Bool)
    (w0 w1 : World) (r : NodePublishVolumeRequest)
    (hv : vid ≠ "") (ht : tp ≠ "") (ht2 : r.targetPath ≠ "")
    (hpub : NodeServer.NodePublishVolume bk wok w0 r = (Except.ok (), w1)) :
    (NodeServer.NodeUnpublishVolume true w vid tp).1 = Except.ok () ∧
    (NodeServer.NodeUnpublishVolume true
        (NodeServer.NodeUnpublishVolume true w vid tp).2 vid tp).1 = Except.ok () ∧
    (NodeServer.NodeUnpublishVolume false w vid tp).1
      = Except.error { code := ErrCode.internal, msg := "remove failed" } ∧
    pathExists (NodeServer.NodeUnpublishVolume true w1 vid r.targetPath).2.fs r.targetPath
      = false ∧
    ((NodeServer.NodeUnpublishVolume true w1 vid r.targetPath).2.fs.mounts.all
        (fun m => !(m.target == r.targetPath))) = true := by
  refine ⟨?_, ?_, ?_, ?_, ?_⟩
  · simp [NodeServer.NodeUnpublishVolume, hv, ht]
  · simp [NodeServer.NodeUnpublishVolume, hv, ht]
  · simp [NodeServer.NodeUnpublishVolume, hv, ht]
  · simpa [NodeServer.NodeUnpublishVolume, hv, ht2] using
      pathExists_removeAll (unmountFS w1.fs r.targetPath) r.targetPath
  · simp only [NodeServer.NodeUnpublishVolume, if_neg hv, if_neg ht2, if_pos rfl]
    exact mounts_filter_all w1.fs.mounts r.targetPath

/-- Witness for C5: after the concrete successful publish, unpublish
succeeds and leaves no path and no mount entry at the target. -/
theorem unpublish_idempotent_teardown_witness :
    (NodeServer.NodeUnpublishVolume true wWit "vol" "/x").1 = Except.ok () ∧
    pathExists (NodeServer.NodeUnpublishVolume true w1Wit "vol" "/tp").2.fs "/tp" = false := by
  have h := unpublish_idempotent_teardown wWit "vol" "/x" bkWit (fun _ => true)
    wWit w1Wit reqWit (by decide) (by decide) (by decide) (by rfl)
  exact ⟨h.1, h.2.2.2.1⟩

/-- Claim C9: when every write succeeds, writeData reports no error and
each entry of the data map ends up as a file at the join of the target
path and the entry name with the entry content as body — in particular
the concrete two-entry map yields exactly the files a and b with bodies x
and y under either iteration order; the first failing write stops the
loop and returns that failure with the filesystem exactly as it was at
that point, and no file present before a write survives unremoved. -/
theorem writeData_correct (t : String) (wok : String → Bool) (d : AnnList)
    (fs : FileSystem) :
    ((∀ p ∈ d, wok (filepathJoin t p.1) = true) →
      (d.map (fun p => filepathJoin t p.1)).Nodup →
      (NodeServer.writeData wok t d fs).1 = none ∧
      ∀ p ∈ d, lookupKey (NodeServer.writeData wok t d fs).2.files (filepathJoin t p.1)
        = some p.2) ∧
    (∀ n c rest, wok (filepathJoin t n) = false →
      NodeServer.writeData wok t ((n, c) :: rest) fs = (some (filepathJoin t n), fs)) ∧
    (∀ q, (lookupKey fs.files q).isSome = true →
      (lookupKey (NodeServer.writeData wok t d fs).2.files q).isSome = true) ∧
    (NodeServer.writeData (fun _ => true) "/target" [("a", "x"), ("b", "y")] emptyFS).2.files
      = [("/target/a", "x"), ("/target/b", "y")] ∧
    (NodeServer.writeData (fun _ => true) "/target" [("b", "y"), ("a", "x")] emptyFS).2.files
      = [("/target/b", "y"), ("/target/a", "x")] := by
  refine ⟨?_, ?_, ?_, by rfl, by rfl⟩
  · intro hok hnd
    exact ⟨writeData_ok_of wok t d fs hok, writeData_writes wok t d fs hok hnd⟩
  · intro n c rest hw
    simp [NodeServer.writeData, hw]
  · intro q hq
    exact writeData_keeps wok t d fs q hq

/-- Witness for C9: the concrete two-entry map writes both files and
reports no error. -/
theorem writeData_correct_witness :
    (NodeServer.writeData (fun _ => true) "/target" [("a", "x"), ("b", "y")] emptyFS).1
      = none ∧
    lookupKey (NodeServer.writeData (fun _ => true) "/target"
        [("a", "x"), ("b", "y")] emptyFS).2.files (filepathJoin "/target" "a")
      = some "x" := by
  have h := (writeData_correct "/target" (fun _ => true) [("a", "x"), ("b", "y")] emptyFS).1
    (by intro p hp; rfl) (by decide)
  exact ⟨h.1, h.2 ("a", "x") (by simp)⟩

/-- Claim C10: writeData does not guard against parent-directory
traversal: the name with a dot-dot segment joins to a path outside the
target directory, and the write is attempted (and succeeds) at that
outside path instead of the call being rejected. -/
theorem writeData_no_traversal_guard :
    filepathJoin "/data/target" "../escape" = "/data/escape" ∧
    pathUnder "/data/target" "/data/escape" = false ∧
    NodeServer.writeData (fun _ => true) "/data/target" [("../escape", "boom")] emptyFS
      = (none, { dirs := [], files := [("/data/escape", "boom")], mounts := [] }) := by
  exact ⟨by decide, by decide, by rfl⟩
